import Mathlib

/-!
Verification of the webpage-analyzer analysis engine (Go) against its
natural-language specification.  The Go code in `internal/parser/html.go`,
`internal/analyzer` and `internal/http/handlers.go` is embedded shallowly:
the parsed HTML tree becomes an inductive type, each Go function becomes a
Lean function of the same name, Go `map` values become association lists,
and the service pipeline becomes explicit state passing over the cache.
External collaborators from the Go standard library (`strings`, `net/url`,
`net/http.StatusText`) are modelled by executable Lean functions whose doc
comments state the scope of the model.
-/

namespace WebpageAnalyzer

/-! ## Models of the Go `strings` functions used by the parser -/

/-- Model of `strings.HasPrefix` on character lists: `startsWithChars p s`
is true when `p` is an initial segment of `s`. -/
def startsWithChars : List Char → List Char → Bool
  | [], _ => true
  | _ :: _, [] => false
  | a :: as, b :: bs => a == b && startsWithChars as bs

/-- Substring search on character lists (model of `strings.Contains`). -/
def containsChars : List Char → List Char → Bool
  | s, needle =>
    if startsWithChars needle s then true
    else
      match s with
      | [] => false
      | _ :: t => containsChars t needle

/-- Model of Go `strings.HasPrefix s p`. -/
def strStartsWith (s p : String) : Bool :=
  startsWithChars p.data s.data

/-- Model of Go `strings.Contains s sub`. -/
def strContains (s sub : String) : Bool :=
  containsChars s.data sub.data

/-- Model of Go `strings.ToLower` (ASCII case folding, which is all the
analyzer's keyword tables need). -/
def lowerStr (s : String) : String :=
  ⟨s.data.map Char.toLower⟩

/-- Model of Go `strings.EqualFold` (simple case folding). -/
def eqFold (a b : String) : Bool :=
  lowerStr a == lowerStr b

/-- Model of Go `strings.TrimSpace`. -/
def trimSpace (s : String) : String :=
  ⟨((s.data.dropWhile Char.isWhitespace).reverse.dropWhile Char.isWhitespace).reverse⟩

/-! ## The parsed document tree (model of `golang.org/x/net/html.Node`)

A Go `html.Node` carries a node type, tag or text data, an attribute list
and, via `FirstChild`/`NextSibling`, an ordered list of children.  Every
traversal in `internal/parser/html.go` visits a node and then iterates its
children in order, which is exactly recursion over the `kids` list. -/

inductive NodeType where
  | errorNode
  | textNode
  | documentNode
  | elementNode
  | commentNode
  | doctypeNode
  | rawNode
  deriving DecidableEq, Repr

structure HAttr where
  key : String
  val : String
  deriving DecidableEq, Repr

inductive HNode where
  | mk (ty : NodeType) (data : String) (attrs : List HAttr) (kids : List HNode)
  deriving Repr

def HNode.ty : HNode → NodeType
  | .mk t _ _ _ => t

def HNode.data : HNode → String
  | .mk _ d _ _ => d

def HNode.attrs : HNode → List HAttr
  | .mk _ _ a _ => a

def HNode.kids : HNode → List HNode
  | .mk _ _ _ k => k

/-- The Go parser receives the document as `interface{}` (any dynamic
value).  `Sum.inl` is a `*html.Node`; `Sum.inr x` is any other value. -/
def toHTMLNode {α : Type} : HNode ⊕ α → Option HNode
  | .inl n => some n
  | .inr _ => none

/-! ## Field extractors (`internal/parser/html.go`) -/

def defaultHTMLVersion : String := "HTML5 (implied)"

/-- Embedding of `parseDoctype`: reads the first attribute of a doctype
node and maps keyword matches to version names. -/
def parseDoctype (n : HNode) : String :=
  match n.attrs with
  | [] => defaultHTMLVersion
  | a0 :: _ =>
    let doctype := lowerStr a0.val
    if strContains doctype "html5" || strContains doctype "html 5" then "HTML5"
    else if strContains doctype "html4" || strContains doctype "html 4" then "HTML4"
    else if strContains doctype "xhtml" then "XHTML"
    else a0.val

mutual

/-- Embedding of `findDoctype`: first doctype node in document order,
else the empty string. -/
def findDoctype : HNode → String
  | .mk t d a kids =>
    if t == NodeType.doctypeNode then parseDoctype (.mk t d a kids)
    else findDoctypeKids kids

def findDoctypeKids : List HNode → String
  | [] => ""
  | c :: cs =>
    let result := findDoctype c
    if result ≠ "" then result else findDoctypeKids cs

end

/-- Embedding of `ExtractHTMLVersion`. -/
def ExtractHTMLVersion {α : Type} (doc : HNode ⊕ α) : String :=
  match toHTMLNode doc with
  | none => defaultHTMLVersion
  | some htmlDoc =>
    let result := findDoctype htmlDoc
    if result == "" then defaultHTMLVersion else result

/-- Embedding of `isTitleElement`. -/
def isTitleElement (n : HNode) : Bool :=
  n.ty == NodeType.elementNode && eqFold n.data "title"

/-- Embedding of `extractTitleText`: the trimmed text of the first child
when that child is a text node, else the empty string. -/
def extractTitleText (n : HNode) : String :=
  match n.kids with
  | fc :: _ => if fc.ty == NodeType.textNode then trimSpace fc.data else ""
  | [] => ""

mutual

/-- Embedding of `findTitle`: returns the title text at a title element;
otherwise scans children in order, skipping empty results. -/
def findTitle : HNode → String
  | .mk t d a kids =>
    if isTitleElement (.mk t d a kids) then extractTitleText (.mk t d a kids)
    else findTitleKids kids

def findTitleKids : List HNode → String
  | [] => ""
  | c :: cs =>
    let result := findTitle c
    if result ≠ "" then result else findTitleKids cs

end

/-- Embedding of `ExtractPageTitle`. -/
def ExtractPageTitle {α : Type} (doc : HNode ⊕ α) : String :=
  match toHTMLNode doc with
  | none => ""
  | some htmlDoc => findTitle htmlDoc

/-- Embedding of `isHeadingElement`. -/
def isHeadingElement (n : HNode) : Bool :=
  n.ty == NodeType.elementNode &&
    (let l := lowerStr n.data
     l == "h1" || l == "h2" || l == "h3" || l == "h4" || l == "h5" || l == "h6")

/-- One increment on a Go `map[string]int` modelled as an association
list: bump the existing entry or append a fresh entry with count 1. -/
def mapIncr : List (String × Nat) → String → List (String × Nat)
  | [], k => [(k, 1)]
  | (k2, v) :: rest, k =>
    if k2 == k then (k2, v + 1) :: rest else (k2, v) :: mapIncr rest k

/-- Lookup on the modelled `map[string]int` (`none` = key absent). -/
def mapLookup : List (String × Nat) → String → Option Nat
  | [], _ => none
  | (k2, v) :: rest, k => if k2 == k then some v else mapLookup rest k

mutual

/-- Embedding of `countHeadings`: increments `headings[n.Data]` (the raw
tag name) at heading elements, then recurses over the children. -/
def countHeadings : HNode → List (String × Nat) → List (String × Nat)
  | .mk t d a kids, headings =>
    countHeadingsKids kids
      (if isHeadingElement (.mk t d a kids) then mapIncr headings d else headings)

def countHeadingsKids : List HNode → List (String × Nat) → List (String × Nat)
  | [], headings => headings
  | c :: cs, headings => countHeadingsKids cs (countHeadings c headings)

end

/-- Embedding of `ExtractHeadings`. -/
def ExtractHeadings {α : Type} (doc : HNode ⊕ α) : List (String × Nat) :=
  match toHTMLNode doc with
  | none => []
  | some htmlDoc => countHeadings htmlDoc []

/-! ## Model of `net/url` (external collaborator)

The link classifier calls `url.Parse` and `URL.Hostname`.  `GoURL` keeps
the two components the classifier reads: the scheme and the host (with
optional port).  `urlParse` models `net/url.Parse` for the URL shapes the
classifier sees: control characters are rejected, percent escapes are
validated everywhere except the raw query, the scheme is recognised by
Go's `getScheme` rule, an authority is taken after `//`, and the host is
checked for a valid optional port and for characters `net/url` accepts in
a host.  Not modelled (never produced by the analyzer's inputs in this
development): userinfo validation, IPv6 zone identifiers, and rejection of
escaped bytes that decode to forbidden host characters. -/

structure GoURL where
  scheme : String
  host : String
  deriving DecidableEq, Repr

def isCtlChar (c : Char) : Bool :=
  c.toNat < 0x20 || c.toNat == 0x7f

def isAlphaChar (c : Char) : Bool :=
  (0x41 ≤ c.toNat && c.toNat ≤ 0x5a) || (0x61 ≤ c.toNat && c.toNat ≤ 0x7a)

def isDigitChar (c : Char) : Bool :=
  0x30 ≤ c.toNat && c.toNat ≤ 0x39

def isHexChar (c : Char) : Bool :=
  isDigitChar c || (0x41 ≤ c.toNat && c.toNat ≤ 0x46) || (0x61 ≤ c.toNat && c.toNat ≤ 0x66)

/-- Every `%` must be followed by two hex digits (Go `unescape`). -/
def validEscapes : List Char → Bool
  | [] => true
  | '%' :: a :: b :: rest => isHexChar a && isHexChar b && validEscapes rest
  | '%' :: _ => false
  | _ :: rest => validEscapes rest

/-- Characters `net/url` accepts unescaped inside a host subcomponent. -/
def hostCharAllowed (c : Char) : Bool :=
  isAlphaChar c || isDigitChar c || c.toNat ≥ 0x80 ||
    ([45, 46, 95, 126, 33, 36, 38, 39, 40, 41, 42, 43, 44, 59, 61, 58,
      91, 93, 60, 62, 34] : List Nat).contains c.toNat

/-- Index of the last occurrence of `c`, if any. -/
def lastIndexOfChar (l : List Char) (c : Char) : Option Nat :=
  match l with
  | [] => none
  | x :: xs =>
    match lastIndexOfChar xs c with
    | some i => some (i + 1)
    | none => if x == c then some 0 else none

/-- Go `validOptionalPort`: empty, or `:` followed by digits only. -/
def validOptionalPortChars : List Char → Bool
  | [] => true
  | ':' :: rest => rest.all isDigitChar
  | _ => false

/-- Go `getScheme`: returns the (lowercased) scheme and the remainder, or
the whole input with an empty scheme when no scheme is present; fails
(`none`) when a `:` appears at position zero. -/
def getScheme (cs : List Char) : Option (String × List Char) :=
  getSchemeAux cs cs []
where
  getSchemeAux (orig : List Char) : List Char → List Char → Option (String × List Char)
    | [], _ => some ("", orig)
    | c :: rest, acc =>
      if isAlphaChar c then getSchemeAux orig rest (acc ++ [c])
      else if isDigitChar c || c == '+' || c == '-' || c == '.' then
        if acc.isEmpty then some ("", orig) else getSchemeAux orig rest (acc ++ [c])
      else if c == ':' then
        if acc.isEmpty then none else some (lowerStr ⟨acc⟩, rest)
      else some ("", orig)

/-- The characters strictly after the first occurrence of `c` (empty when
`c` does not occur). -/
def afterFirstChar (l : List Char) (c : Char) : List Char :=
  match l.dropWhile (· != c) with
  | [] => []
  | _ :: t => t

/-- Go `parseHost` validity: bracketed hosts need a closing bracket and a
valid optional port after it; other hosts need a valid optional port
after the last colon, valid percent escapes, and allowed characters. -/
def parseHostOK (h : List Char) : Bool :=
  if h.head? == some '[' then
    match lastIndexOfChar h ']' with
    | none => false
    | some i => validOptionalPortChars (h.drop (i + 1))
  else
    (match lastIndexOfChar h ':' with
     | some i => validOptionalPortChars (h.drop i)
     | none => true) &&
    validEscapes h && h.all hostCharAllowed

/-- Go `parseAuthority`: the host is what follows the last `@`. -/
def parseAuthorityChars (a : List Char) : Option (List Char) :=
  let host :=
    match lastIndexOfChar a '@' with
    | some i => a.drop (i + 1)
    | none => a
  if parseHostOK host then some host else none

/-- Model of `net/url.Parse` (see the section comment for its scope). -/
def urlParse (s : String) : Option GoURL :=
  let cs := s.data
  if cs.any isCtlChar then none
  else
    let beforeFrag := cs.takeWhile (· != '#')
    let frag := afterFirstChar cs '#'
    if !validEscapes frag then none
    else
      match getScheme beforeFrag with
      | none => none
      | some (scheme, rest) =>
        let rest2 := rest.takeWhile (· != '?')
        if scheme ≠ "" && !startsWithChars ['/'] rest2 then
          some ⟨scheme, ""⟩
        else if scheme == "" && !startsWithChars ['/'] rest2 &&
            (rest2.takeWhile (· != '/')).contains ':' then
          none
        else if startsWithChars ['/', '/'] rest2 &&
            !(scheme == "" && startsWithChars ['/', '/', '/'] rest2) then
          let afterSlashes := rest2.drop 2
          let authority := afterSlashes.takeWhile (· != '/')
          let pathPart := afterSlashes.dropWhile (· != '/')
          match parseAuthorityChars authority with
          | none => none
          | some host => if validEscapes pathPart then some ⟨scheme, ⟨host⟩⟩ else none
        else if validEscapes rest2 then some ⟨scheme, ""⟩
        else none

/-- Go `splitHostPort` + bracket stripping, as used by `URL.Hostname`. -/
def splitHostPortChars (h : List Char) : List Char :=
  let h1 :=
    match lastIndexOfChar h ':' with
    | some i => if validOptionalPortChars (h.drop i) then h.take i else h
    | none => h
  if h1.head? == some '[' && h1.getLast? == some ']' then (h1.drop 1).dropLast else h1

/-- Model of `net/url.URL.Hostname`. -/
def GoURL.Hostname (u : GoURL) : String :=
  ⟨splitHostPortChars u.host.data⟩

/-! ## Link classifier (`internal/parser/html.go`) -/

/-- The three counters returned by `ExtractLinks`, threaded through the
traversal exactly as the Go code threads its three `*int` pointers. -/
structure LinkCounts where
  internal : Nat
  external : Nat
  inaccessible : Nat
  deriving DecidableEq, Repr

/-- Embedding of `isLinkElement`. -/
def isLinkElement (n : HNode) : Bool :=
  n.ty == NodeType.elementNode && eqFold n.data "a"

/-- Embedding of `getHrefAttribute`: first attribute whose key equals
`href` case-insensitively, else the empty string. -/
def getHrefAttribute (n : HNode) : String :=
  findHref n.attrs
where
  findHref : List HAttr → String
    | [] => ""
    | a :: rest => if eqFold a.key "href" then a.val else findHref rest

/-- Embedding of `isValidLink`. -/
def isValidLink (href : String) : Bool :=
  !(href == "") && !strStartsWith (lowerStr href) "javascript:"

/-- Embedding of `isAbsoluteURL`. -/
def isAbsoluteURL (href : String) : Bool :=
  strStartsWith (lowerStr href) "http://" ||
  strStartsWith (lowerStr href) "https://" ||
  strStartsWith (lowerStr href) "ftp://" ||
  strStartsWith href "//"

/-- Embedding of `isSpecialProtocol`. -/
def isSpecialProtocol (href : String) : Bool :=
  let hrefLower := lowerStr href
  strStartsWith hrefLower "mailto:" ||
  strStartsWith hrefLower "tel:" ||
  strStartsWith hrefLower "ftp://"

/-- Embedding of `isSameDomain`: protocol-relative hrefs borrow the base
scheme, then both URLs are parsed and the hostnames compared
case-insensitively; any parse failure yields `false`. -/
def isSameDomain (href baseURL : String) : Bool :=
  let resolved : Option String :=
    if strStartsWith href "//" then
      match urlParse baseURL with
      | some b => some (b.scheme ++ ":" ++ href)
      | none => none
    else some href
  match resolved with
  | none => false
  | some h =>
    match urlParse h, urlParse baseURL with
    | some hrefURL, some baseURLParsed => eqFold hrefURL.Hostname baseURLParsed.Hostname
    | _, _ => false

/-- Embedding of `categorizeLink` (increments one of internal/external). -/
def categorizeLink (href baseURL : String) (c : LinkCounts) : LinkCounts :=
  if !isAbsoluteURL href then { c with internal := c.internal + 1 }
  else if isSpecialProtocol href then { c with external := c.external + 1 }
  else if isSameDomain href baseURL then { c with internal := c.internal + 1 }
  else { c with external := c.external + 1 }

/-- Embedding of `processLink` (increments exactly one counter). -/
def processLink (n : HNode) (baseURL : String) (c : LinkCounts) : LinkCounts :=
  let href := getHrefAttribute n
  if href == "" then { c with inaccessible := c.inaccessible + 1 }
  else if !isValidLink href then { c with inaccessible := c.inaccessible + 1 }
  else categorizeLink href baseURL c

mutual

/-- Embedding of `analyzeLinks`: process the node if it is an anchor, then
recurse over the children in order. -/
def analyzeLinks : HNode → String → LinkCounts → LinkCounts
  | .mk t d a kids, baseURL, c =>
    analyzeLinksKids kids baseURL
      (if isLinkElement (.mk t d a kids) then processLink (.mk t d a kids) baseURL c else c)

def analyzeLinksKids : List HNode → String → LinkCounts → LinkCounts
  | [], _, c => c
  | k :: ks, baseURL, c => analyzeLinksKids ks baseURL (analyzeLinks k baseURL c)

end

/-- Embedding of `ExtractLinks`. -/
def ExtractLinks {α : Type} (doc : HNode ⊕ α) (baseURL : String) : LinkCounts :=
  match toHTMLNode doc with
  | none => ⟨0, 0, 0⟩
  | some htmlDoc => analyzeLinks htmlDoc baseURL ⟨0, 0, 0⟩

/-! ## Login-form detector (`internal/parser/html.go`) -/

/-- Embedding of `isFormElement`. -/
def isFormElement (n : HNode) : Bool :=
  n.ty == NodeType.elementNode && eqFold n.data "form"

/-- Embedding of `isInputElement`. -/
def isInputElement (n : HNode) : Bool :=
  n.ty == NodeType.elementNode && eqFold n.data "input"

mutual

/-- Embedding of `hasInputWithType`: is there an input element with the
given `type` attribute value in this subtree? -/
def hasInputWithType : HNode → String → Bool
  | .mk t d a kids, inputType =>
    (isInputElement (.mk t d a kids) &&
      a.any (fun attr => eqFold attr.key "type" && eqFold attr.val inputType)) ||
    hasInputWithTypeKids kids inputType

def hasInputWithTypeKids : List HNode → String → Bool
  | [], _ => false
  | c :: cs, inputType => hasInputWithType c inputType || hasInputWithTypeKids cs inputType

end

/-- Embedding of `hasPasswordInput`. -/
def hasPasswordInput (n : HNode) : Bool :=
  hasInputWithType n "password"

/-- Embedding of `containsLoginPattern`. -/
def containsLoginPattern (s : String) : Bool :=
  (["login", "signin", "sign_in", "sign-in",
    "authenticate", "auth", "authentication",
    "logon", "signon", "sign_on", "sign-on"] : List String).any
    (fun pattern => strContains s pattern)

/-- Embedding of `hasLoginPattern`: login patterns in the `action`, `id`,
`name` or `class` attribute of the form element itself. -/
def hasLoginPattern (n : HNode) : Bool :=
  n.attrs.any fun attr =>
    (let k := lowerStr attr.key
     k == "action" || k == "id" || k == "name" || k == "class") &&
    containsLoginPattern (lowerStr attr.val)

/-- Embedding of `hasAuthAttributes`: authentication-related attribute
keys, or login-related `autocomplete` values, on the form element. -/
def hasAuthAttributes (n : HNode) : Bool :=
  n.attrs.any fun attr =>
    let attrKey := lowerStr attr.key
    let attrValue := lowerStr attr.val
    (["autocomplete", "data-auth", "data-login"] : List String).any
      (fun authAttr => strContains attrKey authAttr) ||
    (attrKey == "autocomplete" &&
      (["username", "current-password", "new-password"] : List String).any
        (fun loginAuto => strContains attrValue loginAuto))

mutual

/-- Embedding of `extractText` (the `strings.Builder` accumulation):
concatenates the data of every text node in document order. -/
def extractText : HNode → String
  | .mk t d _ kids =>
    (if t == NodeType.textNode then d else "") ++ extractTextKids kids

def extractTextKids : List HNode → String
  | [] => ""
  | c :: cs => extractText c ++ extractTextKids cs

end

/-- Embedding of `getNodeText`. -/
def getNodeText (n : HNode) : String :=
  extractText n

/-- Embedding of `hasSpecificLoginText`: login-contextual phrases or
field labels in the lowercased text of the form subtree. -/
def hasSpecificLoginText (n : HNode) : Bool :=
  let formText := lowerStr (getNodeText n)
  (["sign in to", "log in to", "login to",
    "welcome back", "welcome to",
    "enter your", "provide your",
    "access your account", "access account",
    "your credentials", "your password",
    "authentication required", "login required"] : List String).any
    (fun phrase => strContains formText phrase) ||
  (["username", "user id", "userid", "user-id",
    "email address", "email addr", "e-mail",
    "password", "passwd", "pass word", "pass-word"] : List String).any
    (fun label => strContains formText label)

/-- Embedding of `isSubmitButton`. -/
def isSubmitButton (n : HNode) : Bool :=
  n.ty == NodeType.elementNode &&
  (let l := lowerStr n.data
   l == "button" || l == "input") &&
  n.attrs.any (fun attr => eqFold attr.key "type" && eqFold attr.val "submit")

mutual

/-- Embedding of `findSubmitButtonWithText` (specialised to the login
vocabulary used by `hasLoginSubmitButton`). -/
def findSubmitButtonWithText : HNode → List String → Bool
  | .mk t d a kids, buttonTexts =>
    (isSubmitButton (.mk t d a kids) &&
      buttonTexts.any (fun text => strContains (lowerStr (getNodeText (.mk t d a kids))) text)) ||
    findSubmitButtonWithTextKids kids buttonTexts

def findSubmitButtonWithTextKids : List HNode → List String → Bool
  | [], _ => false
  | c :: cs, buttonTexts =>
    findSubmitButtonWithText c buttonTexts || findSubmitButtonWithTextKids cs buttonTexts

end

/-- Embedding of `hasLoginSubmitButton`. -/
def hasLoginSubmitButton (n : HNode) : Bool :=
  findSubmitButtonWithText n
    ["login", "sign in", "signin", "log in",
     "authenticate", "continue", "submit",
     "enter", "access", "proceed"]

/-- Embedding of `containsLoginKeyword` (keywords for input names/ids). -/
def containsLoginKeyword (s : String) : Bool :=
  let name := lowerStr s
  (["username", "userid", "user_id", "user-name", "password", "passwd",
    "pass_word", "pass-word", "login", "email"] : List String).any
    (fun keyword => strContains name keyword)

/-- Embedding of `isLoginAttribute`: a `type` attribute equal to
`password`, or a `name`/`id` attribute containing a login keyword. -/
def isLoginAttribute (attr : HAttr) : Bool :=
  let k := lowerStr attr.key
  if k == "type" then eqFold attr.val "password"
  else if k == "name" || k == "id" then containsLoginKeyword attr.val
  else false

/-- Embedding of `isLoginInput`. -/
def isLoginInput (n : HNode) : Bool :=
  n.attrs.any isLoginAttribute

mutual

/-- Embedding of `checkInputs`: at an input element the answer is decided
by that element alone (its subtree is not scanned further); elsewhere the
children are scanned in order. -/
def checkInputs : HNode → Bool
  | .mk t d a kids =>
    if isInputElement (.mk t d a kids) then isLoginInput (.mk t d a kids)
    else checkInputsKids kids

def checkInputsKids : List HNode → Bool
  | [] => false
  | c :: cs => checkInputs c || checkInputsKids cs

end

/-- Embedding of `hasLoginInputs`. -/
def hasLoginInputs (n : HNode) : Bool :=
  checkInputs n

/-- Embedding of `isLoginForm`: a password input is required, plus at
least one of the five other indicator functions. -/
def isLoginForm (n : HNode) : Bool :=
  let hasPassword := hasPasswordInput n
  if !hasPassword then false
  else
    hasPassword &&
      (hasLoginPattern n || hasAuthAttributes n || hasSpecificLoginText n ||
       hasLoginSubmitButton n || hasLoginInputs n)

mutual

/-- Embedding of `findLoginForm`: is any form element in the tree a login
form? -/
def findLoginForm : HNode → Bool
  | .mk t d a kids =>
    (isFormElement (.mk t d a kids) && isLoginForm (.mk t d a kids)) ||
    findLoginFormKids kids

def findLoginFormKids : List HNode → Bool
  | [] => false
  | c :: cs => findLoginForm c || findLoginFormKids cs

end

/-- Embedding of `ExtractLoginForm`. -/
def ExtractLoginForm {α : Type} (doc : HNode ⊕ α) : Bool :=
  match toHTMLNode doc with
  | none => false
  | some htmlDoc => findLoginForm htmlDoc

/-! ## Analysis records, errors, and the result cache

Embeddings of `WebpageAnalysis`, `AnalysisError` and
`cache.LocalCache[string, *WebpageAnalysis]`.  `time.Time` is modelled as
a natural number supplied by the caller; the wall-clock
`ProcessingTime` string is not modelled (fixed to `""`).  The Go map
inside `LocalCache` becomes an association list looked up by exact string
equality, matching Go map key semantics (no normalization). -/

structure WebpageAnalysis where
  url : String
  htmlVersion : String
  pageTitle : String
  headings : List (String × Nat)
  internalLinks : Nat
  externalLinks : Nat
  inaccessibleLinks : Nat
  hasLoginForm : Bool
  analyzedAt : Nat
  processingTime : String
  deriving DecidableEq, Repr

structure AnalysisError where
  statusCode : Int
  errorMessage : String
  url : String
  deriving DecidableEq, Repr

abbrev Cache := List (String × WebpageAnalysis)

/-- Embedding of `LocalCache.Get` (Go map read by exact key). -/
def cacheGet : Cache → String → Option WebpageAnalysis
  | [], _ => none
  | (k2, v) :: rest, k => if k2 == k then some v else cacheGet rest k

/-- Embedding of `LocalCache.Set` (Go map write by exact key). -/
def cacheSet : Cache → String → WebpageAnalysis → Cache
  | [], k, v => [(k, v)]
  | (k2, v2) :: rest, k, v =>
    if k2 == k then (k2, v) :: rest else (k2, v2) :: cacheSet rest k v

/-! ## Model of `net/http.StatusText` and the status-message table -/

/-- Model of `net/http.StatusText`, restricted to the status codes this
development mentions; every other code yields the empty string, as Go
does for unassigned codes. -/
def statusText (code : Int) : String :=
  if code = 200 then "OK"
  else if code = 301 then "Moved Permanently"
  else if code = 302 then "Found"
  else if code = 400 then "Bad Request"
  else if code = 401 then "Unauthorized"
  else if code = 403 then "Forbidden"
  else if code = 404 then "Not Found"
  else if code = 408 then "Request Timeout"
  else if code = 410 then "Gone"
  else if code = 429 then "Too Many Requests"
  else if code = 500 then "Internal Server Error"
  else if code = 502 then "Bad Gateway"
  else if code = 503 then "Service Unavailable"
  else if code = 504 then "Gateway Timeout"
  else if code = 505 then "HTTP Version Not Supported"
  else ""

/-- Embedding of `service.getHTTPStatusMessage`. -/
def getHTTPStatusMessage (statusCode : Int) : String :=
  if statusCode = 400 then
    "Bad Request: The URL format is invalid or the request is malformed."
  else if statusCode = 401 then
    "Unauthorized: Access to this resource requires authentication."
  else if statusCode = 403 then
    "Forbidden: Access to this resource is denied."
  else if statusCode = 404 then
    "Not Found: The requested webpage could not be found on the server."
  else if statusCode = 408 then
    "Request Timeout: The server took too long to respond."
  else if statusCode = 429 then
    "Too Many Requests: The server is receiving too many requests. Please try again later."
  else if statusCode = 495 then
    "SSL Certificate Error: There was a problem with the security certificate."
  else if statusCode = 500 then
    "Internal Server Error: The server encountered an error while processing the request."
  else if statusCode = 502 then
    "Bad Gateway: The server received an invalid response from an upstream server."
  else if statusCode = 503 then
    "Service Unavailable: The server is temporarily unable to handle the request."
  else if statusCode = 504 then
    "Gateway Timeout: The server acting as a gateway did not receive a timely response."
  else
    "HTTP " ++ toString statusCode ++ ": " ++ statusText statusCode

/-! ## The task group (`internal/worker`), its five tasks, and collection

Each of the five extraction tasks is a pure function of the shared
read-only document handle; its result is stored under the task's name.
`TaskResult` models the dynamically typed `interface{}` results.  The
tasks in this code always return a `nil` error, so the per-task error
slot is omitted.  A concurrent run of the task group is modelled by the
list of (name, result) completion records in completion order: because
each task writes only its own slot, any schedule of the pool is some
permutation of the canonical sequential list. -/

inductive TaskResult where
  | strVal (s : String)
  | headingsVal (m : List (String × Nat))
  | linksVal (m : List (String × Nat))
  | boolVal (b : Bool)
  deriving DecidableEq, Repr

/-- The five named extraction tasks of `AnalyzeWebpage`, with the result
each task computes from the shared document handle. -/
def analysisTasks (doc : HNode ⊕ Unit) (url : String) : List (String × TaskResult) :=
  [("html_version", .strVal (ExtractHTMLVersion doc)),
   ("page_title", .strVal (ExtractPageTitle doc)),
   ("headings", .headingsVal (ExtractHeadings doc)),
   ("links",
     .linksVal
       (let c := ExtractLinks doc url
        [("internal", c.internal), ("external", c.external), ("inaccessible", c.inaccessible)])),
   ("login_form", .boolVal (ExtractLoginForm doc))]

/-- Embedding of `AnalysisTaskGroup.GetResult`: the stored result of the
named task, or `none` for an unknown name. -/
def getResult : List (String × TaskResult) → String → Option TaskResult
  | [], _ => none
  | (n, r) :: rest, name => if n == name then some r else getResult rest name

/-- Go map read with the zero value for a missing key (`linkMap["x"]`). -/
def lookupNatZero (m : List (String × Nat)) (k : String) : Nat :=
  (mapLookup m k).getD 0

/-- Embedding of the result-collection phase of `AnalyzeWebpage`: each
named result that is present with the expected dynamic type fills its
field of the record; anything else leaves the zero value. -/
def collectResults (base : WebpageAnalysis) (results : List (String × TaskResult)) :
    WebpageAnalysis :=
  let a := base
  let a := match getResult results "html_version" with
    | some (.strVal s) => { a with htmlVersion := s }
    | _ => a
  let a := match getResult results "page_title" with
    | some (.strVal s) => { a with pageTitle := s }
    | _ => a
  let a := match getResult results "headings" with
    | some (.headingsVal h) => { a with headings := h }
    | _ => a
  let a := match getResult results "links" with
    | some (.linksVal m) =>
      { a with
        internalLinks := lookupNatZero m "internal"
        externalLinks := lookupNatZero m "external"
        inaccessibleLinks := lookupNatZero m "inaccessible" }
    | _ => a
  match getResult results "login_form" with
  | some (.boolVal b) => { a with hasLoginForm := b }
  | _ => a

/-! ## The analysis service (`internal/analyzer/service.go`) -/

/-- Result of `HTTPClient.FetchWebpage`: body, status code, and the error
message when the transport failed. -/
structure FetchResult where
  body : String
  statusCode : Int
  fetchErr : Option String
  deriving DecidableEq, Repr

/-- The two collaborators `AnalyzeWebpage` consults before extraction:
the fetcher and the HTML parser (`ParseHTML` yields a tree or an error
message). -/
structure Collaborators where
  fetchWebpage : String → FetchResult
  parseHTML : String → HNode ⊕ String

/-- How many collaborator calls a request performed. -/
structure Effects where
  fetches : Nat
  parses : Nat
  deriving DecidableEq, Repr

/-- Embedding of `service.AnalyzeWebpage`: cache lookup by the exact URL
string short-circuits everything; otherwise fetch, check the status,
parse, run the five extraction tasks over the shared handle, assemble the
record, and write it to the cache.  Returns the outcome, the new cache
state, and the collaborator call counts. -/
def analyzeWebpage (co : Collaborators) (cache : Cache) (now : Nat) (url : String) :
    (AnalysisError ⊕ WebpageAnalysis) × Cache × Effects :=
  match cacheGet cache url with
  | some cached => (.inr cached, cache, ⟨0, 0⟩)
  | none =>
    let fr := co.fetchWebpage url
    match fr.fetchErr with
    | some msg => (.inl ⟨fr.statusCode, msg, url⟩, cache, ⟨1, 0⟩)
    | none =>
      if fr.statusCode ≠ 200 then
        (.inl ⟨fr.statusCode, getHTTPStatusMessage fr.statusCode, url⟩, cache, ⟨1, 0⟩)
      else
        match co.parseHTML fr.body with
        | .inr errMsg =>
          (.inl ⟨fr.statusCode, "Failed to parse HTML content: " ++ errMsg, url⟩, cache, ⟨1, 1⟩)
        | .inl docTree =>
          let doc : HNode ⊕ Unit := .inl docTree
          let base : WebpageAnalysis :=
            { url := url, htmlVersion := "", pageTitle := "", headings := []
              internalLinks := 0, externalLinks := 0, inaccessibleLinks := 0
              hasLoginForm := false, analyzedAt := now, processingTime := "" }
          let analysis := collectResults base (analysisTasks doc url)
          (.inr analysis, cacheSet cache url analysis, ⟨1, 1⟩)

/-! ## HTTP handler error surfacing (`internal/http/handlers.go`) -/

/-- The error value returned by the service as the handler sees it:
either a typed `*AnalysisError` or any other error. -/
inductive ServiceError where
  | analysis (e : AnalysisError)
  | other (msg : String)
  deriving DecidableEq, Repr

/-- Embedding of the error dispatch in `Handler.AnalyzeWebpage`: a typed
analysis error is written as JSON with transport status 400; any other
error gets status 500; success is written with status 200. -/
def handlerTransportStatus : ServiceError ⊕ WebpageAnalysis → Int
  | .inl (.analysis _) => 400
  | .inl (.other _) => 500
  | .inr _ => 200

/-! ## Specification-side definitions

These definitions follow the words of the specification (not the code)
and are used to state the claims about the code functions above. -/

mutual

/-- The number of anchor (`a`) elements in the tree. -/
def anchorCount : HNode → Nat
  | .mk t d a kids =>
    (if isLinkElement (.mk t d a kids) then 1 else 0) + anchorCountKids kids

def anchorCountKids : List HNode → Nat
  | [] => 0
  | c :: cs => anchorCount c + anchorCountKids cs

end

mutual

/-- The title texts of the tree in document order (one entry per title
element reached by the extraction traversal, which does not descend into
title elements). -/
def titleTextsSpec : HNode → List String
  | .mk t d a kids =>
    if isTitleElement (.mk t d a kids) then [extractTitleText (.mk t d a kids)]
    else titleTextsSpecKids kids

def titleTextsSpecKids : List HNode → List String
  | [] => []
  | c :: cs => titleTextsSpec c ++ titleTextsSpecKids cs

end

/-- The first non-empty entry of a list of strings, or `""`. -/
def firstNonEmpty : List String → String
  | [] => ""
  | s :: rest => if s ≠ "" then s else firstNonEmpty rest

/-- The lookup value of a histogram key after adding `occ` occurrences to
a key whose previous lookup value was `prev` (absent keys stay absent for
zero occurrences and appear with the exact count otherwise). -/
def lookupAfter (prev : Option Nat) (occ : Nat) : Option Nat :=
  match prev with
  | some v => some (v + occ)
  | none => if occ = 0 then none else some occ

mutual

/-- The number of heading elements (tag case-insensitively `h1`..`h6`)
whose tag name is exactly `k`. -/
def headingOccurrences (k : String) : HNode → Nat
  | .mk t d a kids =>
    (if isHeadingElement (.mk t d a kids) && d == k then 1 else 0) +
      headingOccurrencesKids k kids

def headingOccurrencesKids (k : String) : List HNode → Nat
  | [] => 0
  | c :: cs => headingOccurrences k c + headingOccurrencesKids k cs

end

mutual

/-- Specification wording of login signal (e): some input element in the
subtree has a `name` or `id` attribute containing a login-field
keyword. -/
def specLoginFieldInput : HNode → Bool
  | .mk t d a kids =>
    (isInputElement (.mk t d a kids) &&
      a.any fun attr =>
        (let k := lowerStr attr.key
         k == "name" || k == "id") && containsLoginKeyword attr.val) ||
    specLoginFieldInputKids kids

def specLoginFieldInputKids : List HNode → Bool
  | [] => false
  | c :: cs => specLoginFieldInput c || specLoginFieldInputKids cs

end

mutual

/-- Is there any input element in the tree (the node itself included)? -/
def hasInputElem : HNode → Bool
  | .mk t d a kids =>
    isInputElement (.mk t d a kids) || hasInputElemKids kids

def hasInputElemKids : List HNode → Bool
  | [] => false
  | c :: cs => hasInputElem c || hasInputElemKids cs

end

mutual

/-- No input element of the tree contains another input element.  Every
tree produced by an HTML parser satisfies this: `input` is a void
element and never has children. -/
def noNestedInputs : HNode → Bool
  | .mk t d a kids =>
    if isInputElement (.mk t d a kids) then !hasInputElemKids kids
    else noNestedInputsKids kids

def noNestedInputsKids : List HNode → Bool
  | [] => true
  | c :: cs => noNestedInputs c && noNestedInputsKids cs

end

/-- The href of a protocol-relative link resolved with the base scheme,
then parsed; other hrefs parsed directly (the parse chain inside
`isSameDomain`, written as an `Option` pipeline for specification). -/
def resolvedParse (href baseURL : String) : Option GoURL :=
  if strStartsWith href "//" then
    (urlParse baseURL).bind fun b => urlParse (b.scheme ++ ":" ++ href)
  else urlParse href

/-! ## Concrete documents used as witnesses and counterexamples -/

/-- An anchor element with the given href attribute. -/
def anchorWith (href : String) : HNode :=
  .mk .elementNode "a" [⟨"href", href⟩] []

/-- A minimal page wrapping the given body children. -/
def pageOf (kids : List HNode) : HNode :=
  .mk .elementNode "html" [] [.mk .elementNode "body" [] kids]

/-- An anchor whose absolute href fails URL parsing (invalid percent
escape in the path). -/
def malformedAnchor : HNode :=
  anchorWith "http://malformed.test/%zz"

/-- A small page with one internal, one external and one empty-href
anchor. -/
def linksSampleDoc : HNode :=
  pageOf [anchorWith "/about", anchorWith "https://other.com", anchorWith ""]

/-- A form containing exactly one bare password input: no attribute, text
or control of the form carries any independent login signal. -/
def passwordOnlyForm : HNode :=
  .mk .elementNode "form" [] [.mk .elementNode "input" [⟨"type", "password"⟩] []]

/-- A page whose only form is `passwordOnlyForm`. -/
def passwordOnlyDoc : HNode :=
  pageOf [passwordOnlyForm]

/-- A page whose first title element is empty and whose second title
element has text. -/
def twoTitlesDoc : HNode :=
  .mk .elementNode "html" []
    [.mk .elementNode "head" []
      [.mk .elementNode "title" [] [],
       .mk .elementNode "title" [] [.mk .textNode "Second" [] []]]]

/-- A tree holding one heading element with the uppercase tag `H1`. -/
def upperHeadingDoc : HNode :=
  pageOf [.mk .elementNode "H1" [] [.mk .textNode "Heading" [] []]]

/-- A tiny page for the service-level witnesses: a title and a login
form. -/
def serviceSampleDoc : HNode :=
  .mk .elementNode "html" []
    [.mk .elementNode "head" []
      [.mk .elementNode "title" [] [.mk .textNode "Example Domain" [] []]],
     .mk .elementNode "body" [] [anchorWith "/about"]]

/-- The analysis record `analyzeWebpage` produces for
`serviceSampleDoc` fetched from `https://example.com` at time 5. -/
def serviceSampleRecord : WebpageAnalysis :=
  { url := "https://example.com", htmlVersion := "HTML5 (implied)"
    pageTitle := "Example Domain", headings := []
    internalLinks := 1, externalLinks := 0, inaccessibleLinks := 0
    hasLoginForm := false, analyzedAt := 5, processingTime := "" }

/-- Collaborators whose fetch succeeds with status 200 and whose parser
returns `serviceSampleDoc`. -/
def okCollaborators : Collaborators :=
  { fetchWebpage := fun _ => ⟨"<html>body</html>", 200, none⟩
    parseHTML := fun _ => .inl serviceSampleDoc }

/-- Collaborators whose fetch succeeds at the transport level but returns
HTTP status 410, a code outside the mapped message table. -/
def goneCollaborators : Collaborators :=
  { fetchWebpage := fun _ => ⟨"", 410, none⟩
    parseHTML := fun _ => .inl serviceSampleDoc }

/-! ## Helper lemmas: link counting -/

theorem processLink_bumps_one (n : HNode) (baseURL : String) (c : LinkCounts) :
    processLink n baseURL c = { c with internal := c.internal + 1 } ∨
    processLink n baseURL c = { c with external := c.external + 1 } ∨
    processLink n baseURL c = { c with inaccessible := c.inaccessible + 1 } := by
  unfold processLink categorizeLink
  dsimp only
  split_ifs <;> simp

theorem processLink_total (n : HNode) (baseURL : String) (c : LinkCounts) :
    (processLink n baseURL c).internal + (processLink n baseURL c).external +
      (processLink n baseURL c).inaccessible =
    c.internal + c.external + c.inaccessible + 1 := by
  rcases processLink_bumps_one n baseURL c with h | h | h <;> rw [h] <;> dsimp <;> omega

mutual

theorem analyzeLinks_total : ∀ (n : HNode) (baseURL : String) (c : LinkCounts),
    (analyzeLinks n baseURL c).internal + (analyzeLinks n baseURL c).external +
      (analyzeLinks n baseURL c).inaccessible =
    c.internal + c.external + c.inaccessible + anchorCount n
  | .mk t d a kids, baseURL, c => by
    rw [analyzeLinks, anchorCount, analyzeLinksKids_total kids baseURL _]
    by_cases h : isLinkElement (.mk t d a kids) = true
    · rw [if_pos h, if_pos h, processLink_total]
      omega
    · rw [if_neg h, if_neg h]
      omega

theorem analyzeLinksKids_total : ∀ (l : List HNode) (baseURL : String) (c : LinkCounts),
    (analyzeLinksKids l baseURL c).internal + (analyzeLinksKids l baseURL c).external +
      (analyzeLinksKids l baseURL c).inaccessible =
    c.internal + c.external + c.inaccessible + anchorCountKids l
  | [], baseURL, c => by
    rw [analyzeLinksKids, anchorCountKids]
    omega
  | k :: ks, baseURL, c => by
    rw [analyzeLinksKids, anchorCountKids]
    rw [analyzeLinksKids_total ks baseURL _, analyzeLinks_total k baseURL c]
    omega

end

/-! ## Helper lemmas: string prefixes and domain comparison -/

theorem startsWithChars_ne_head {a b : Char} (hab : a ≠ b) (p q s : List Char)
    (h : startsWithChars (a :: p) s = true) : startsWithChars (b :: q) s = false := by
  cases s with
  | nil => simp [startsWithChars] at h
  | cons x xs =>
    simp only [startsWithChars, Bool.and_eq_true, beq_iff_eq] at h
    have hbx : ¬(b = x) := fun hb => hab (h.1.trans hb.symm)
    simp [startsWithChars, hbx]

theorem startsWithChars_map (f : Char → Char) :
    ∀ p s, startsWithChars p s = true → startsWithChars (p.map f) (s.map f) = true
  | [], _, _ => rfl
  | a :: as, [], h => by simp [startsWithChars] at h
  | a :: as, b :: bs, h => by
    simp only [startsWithChars, Bool.and_eq_true, beq_iff_eq] at h
    simp only [List.map, startsWithChars, Bool.and_eq_true, beq_iff_eq]
    exact ⟨by rw [h.1], startsWithChars_map f as bs h.2⟩

/-- A href whose lowercased form starts with `mailto:` or `tel:` is not
syntactically absolute. -/
theorem specialScheme_not_absolute (href : String)
    (h : strStartsWith (lowerStr href) "mailto:" = true ∨
         strStartsWith (lowerStr href) "tel:" = true) :
    isAbsoluteURL href = false := by
  unfold isAbsoluteURL
  unfold strStartsWith at h ⊢
  have hslash : startsWithChars "//".data href.data = false := by
    by_cases hs : startsWithChars "//".data href.data = true
    · have hlow : startsWithChars (("//".data).map Char.toLower) (href.data.map Char.toLower) = true :=
        startsWithChars_map Char.toLower _ _ hs
      have hmap : ("//".data).map Char.toLower = ('/' :: ['/']) := by decide
      rw [hmap] at hlow
      rcases h with h | h
      · rw [show ("mailto:".data) = 'm' :: "ailto:".data from rfl] at h
        have := startsWithChars_ne_head (a := 'm') (b := '/') (by decide)
          "ailto:".data ['/'] (lowerStr href).data h
        rw [show (lowerStr href).data = href.data.map Char.toLower from rfl] at this
        rw [this] at hlow
        exact absurd hlow (by simp)
      · rw [show ("tel:".data) = 't' :: "el:".data from rfl] at h
        have := startsWithChars_ne_head (a := 't') (b := '/') (by decide)
          "el:".data ['/'] (lowerStr href).data h
        rw [show (lowerStr href).data = href.data.map Char.toLower from rfl] at this
        rw [this] at hlow
        exact absurd hlow (by simp)
    · exact Bool.eq_false_iff.mpr hs
  rcases h with h | h
  · rw [show ("mailto:".data) = 'm' :: "ailto:".data from rfl] at h
    rw [startsWithChars_ne_head (a := 'm') (b := 'h') (by decide) "ailto:".data _ _ h,
      startsWithChars_ne_head (a := 'm') (b := 'h') (by decide) "ailto:".data _ _ h,
      startsWithChars_ne_head (a := 'm') (b := 'f') (by decide) "ailto:".data _ _ h,
      hslash]
    rfl
  · rw [show ("tel:".data) = 't' :: "el:".data from rfl] at h
    rw [startsWithChars_ne_head (a := 't') (b := 'h') (by decide) "el:".data _ _ h,
      startsWithChars_ne_head (a := 't') (b := 'h') (by decide) "el:".data _ _ h,
      startsWithChars_ne_head (a := 't') (b := 'f') (by decide) "el:".data _ _ h,
      hslash]
    rfl

/-- `isSameDomain` unfolded into the `Option` pipeline used by the
specification statement: both parses succeed and the hostnames compare
equal case-insensitively. -/
theorem isSameDomain_iff (href baseURL : String) :
    isSameDomain href baseURL = true ↔
    ∃ hu bu, resolvedParse href baseURL = some hu ∧ urlParse baseURL = some bu ∧
      eqFold hu.Hostname bu.Hostname = true := by
  unfold isSameDomain resolvedParse
  by_cases hpp : strStartsWith href "//" = true
  · cases hb : urlParse baseURL with
    | none => simp [hpp, hb]
    | some b =>
      cases hh : urlParse (b.scheme ++ ":" ++ href) with
      | none => simp [hpp, hb, hh]
      | some hu => simp [hpp, hb, hh]
  · have hpp' : strStartsWith href "//" = false := Bool.eq_false_iff.mpr hpp
    cases hh : urlParse href with
    | none => simp [hpp', hh]
    | some hu =>
      cases hb : urlParse baseURL with
      | none => simp [hpp', hh, hb]
      | some b => simp [hpp', hh, hb]

/-- `categorizeLink` never touches the inaccessible counter. -/
theorem categorizeLink_inaccessible (href baseURL : String) (c : LinkCounts) :
    (categorizeLink href baseURL c).inaccessible = c.inaccessible := by
  unfold categorizeLink
  split_ifs <;> rfl

/-! ## Claim C1 -/

/-- C1: for every document tree and every page URL, the three link
counters returned by `ExtractLinks` satisfy
internal + external + inaccessible = number of anchor elements, and each
anchor element increments exactly one of the three counters exactly
once. -/
theorem claim_extract_links_partition (n : HNode) (baseURL : String) :
    ((ExtractLinks (Sum.inl n : HNode ⊕ Unit) baseURL).internal +
      (ExtractLinks (Sum.inl n : HNode ⊕ Unit) baseURL).external +
      (ExtractLinks (Sum.inl n : HNode ⊕ Unit) baseURL).inaccessible = anchorCount n) ∧
    ∀ (a : HNode) (c : LinkCounts), isLinkElement a = true →
      (processLink a baseURL c = { c with internal := c.internal + 1 } ∨
       processLink a baseURL c = { c with external := c.external + 1 } ∨
       processLink a baseURL c = { c with inaccessible := c.inaccessible + 1 }) := by
  constructor
  · have h := analyzeLinks_total n baseURL ⟨0, 0, 0⟩
    simpa [ExtractLinks, toHTMLNode] using h
  · intro a c _
    exact processLink_bumps_one a baseURL c

/-- Witness for C1 at a concrete page with one internal, one external and
one empty-href anchor. -/
theorem claim_extract_links_partition_witness :
    ((ExtractLinks (Sum.inl linksSampleDoc : HNode ⊕ Unit) "https://example.com").internal +
      (ExtractLinks (Sum.inl linksSampleDoc : HNode ⊕ Unit) "https://example.com").external +
      (ExtractLinks (Sum.inl linksSampleDoc : HNode ⊕ Unit) "https://example.com").inaccessible =
        anchorCount linksSampleDoc) ∧
    (processLink (anchorWith "/about") "https://example.com" ⟨0, 0, 0⟩ = ⟨1, 0, 0⟩ ∨
     processLink (anchorWith "/about") "https://example.com" ⟨0, 0, 0⟩ = ⟨0, 1, 0⟩ ∨
     processLink (anchorWith "/about") "https://example.com" ⟨0, 0, 0⟩ = ⟨0, 0, 1⟩) :=
  ⟨(claim_extract_links_partition linksSampleDoc "https://example.com").1,
   (claim_extract_links_partition linksSampleDoc "https://example.com").2
     (anchorWith "/about") ⟨0, 0, 0⟩ (by decide)⟩

/-! ## Claim C3 -/

/-- C3 counterexample: the anchor with href `http://malformed.test/%zz`
has a non-empty, non-javascript href that fails URL parsing (invalid
percent escape), yet `processLink` counts it as external — not as
inaccessible, as the claim states for malformed hrefs. -/
theorem claim_inaccessible_counterexample :
    urlParse "http://malformed.test/%zz" = none ∧
    processLink malformedAnchor "https://example.com" ⟨0, 0, 0⟩ = ⟨0, 1, 0⟩ := by
  constructor <;> decide

/-- C3 amended: an anchor's classification is inaccessible exactly when
its href is missing, empty, or `javascript:`-prefixed (case-insensitive);
malformed hrefs are never counted inaccessible — an absolute-looking,
non-special, non-protocol-relative href that fails URL parsing is counted
external. -/
theorem claim_inaccessible_amended (n : HNode) (baseURL : String) (c : LinkCounts) :
    ((processLink n baseURL c).inaccessible =
      if getHrefAttribute n == "" ||
          strStartsWith (lowerStr (getHrefAttribute n)) "javascript:" then
        c.inaccessible + 1
      else c.inaccessible) ∧
    (getHrefAttribute n ≠ "" →
     strStartsWith (lowerStr (getHrefAttribute n)) "javascript:" = false →
     isAbsoluteURL (getHrefAttribute n) = true →
     isSpecialProtocol (getHrefAttribute n) = false →
     strStartsWith (getHrefAttribute n) "//" = false →
     urlParse (getHrefAttribute n) = none →
     processLink n baseURL c = { c with external := c.external + 1 }) := by
  constructor
  · unfold processLink
    dsimp only
    by_cases h1 : (getHrefAttribute n == "") = true
    · simp [h1]
    · by_cases h2 : strStartsWith (lowerStr (getHrefAttribute n)) "javascript:" = true
      · simp [h1, h2, isValidLink]
      · simp [h1, h2, isValidLink, categorizeLink_inaccessible]
  · intro h1 h2 h3 h4 h5 h6
    have h1' : (getHrefAttribute n == "") = false := by
      simpa using h1
    have hsd : isSameDomain (getHrefAttribute n) baseURL = false := by
      apply Bool.eq_false_iff.mpr
      intro hsd
      rw [isSameDomain_iff] at hsd
      rcases hsd with ⟨hu, bu, hr, _, _⟩
      unfold resolvedParse at hr
      rw [h5] at hr
      simp only [Bool.false_eq_true, if_false, h6] at hr
      exact Option.noConfusion hr
    unfold processLink categorizeLink
    dsimp only
    simp [h1', h2, h3, h4, hsd, isValidLink]

/-- Witness for the amended C3 at the malformed anchor. -/
theorem claim_inaccessible_amended_witness :
    processLink malformedAnchor "https://example.com" ⟨0, 0, 0⟩ = ⟨0, 1, 0⟩ :=
  (claim_inaccessible_amended malformedAnchor "https://example.com" ⟨0, 0, 0⟩).2
    (by decide) (by decide) (by decide) (by decide) (by decide) (by decide)

/-! ## Claim C4 -/

/-- C4: a relative href (per the code's syntactic test: no
`http://`/`https://`/`ftp://` prefix and no leading `//`) is classified
internal; `mailto:`/`tel:` hrefs are consistently internal (the fixed
policy this implementation documents in its tests); `ftp:` hrefs are
classified external; every other absolute href is classified internal
exactly when both it (after borrowing the base scheme if
protocol-relative) and the page URL parse and their hostnames compare
equal case-insensitively, and external otherwise. -/
theorem claim_link_categorization (href baseURL : String) (c : LinkCounts) :
    (isAbsoluteURL href = false →
      categorizeLink href baseURL c = { c with internal := c.internal + 1 }) ∧
    (strStartsWith (lowerStr href) "mailto:" = true ∨
        strStartsWith (lowerStr href) "tel:" = true →
      categorizeLink href baseURL c = { c with internal := c.internal + 1 }) ∧
    (strStartsWith (lowerStr href) "ftp://" = true →
      categorizeLink href baseURL c = { c with external := c.external + 1 }) ∧
    (isAbsoluteURL href = true → isSpecialProtocol href = false →
      ((categorizeLink href baseURL c = { c with internal := c.internal + 1 } ↔
        ∃ hu bu, resolvedParse href baseURL = some hu ∧ urlParse baseURL = some bu ∧
          eqFold hu.Hostname bu.Hostname = true) ∧
       (categorizeLink href baseURL c = { c with internal := c.internal + 1 } ∨
        categorizeLink href baseURL c = { c with external := c.external + 1 }))) := by
  refine ⟨?_, ?_, ?_, ?_⟩
  · intro h
    unfold categorizeLink
    simp [h]
  · intro h
    have habs := specialScheme_not_absolute href h
    unfold categorizeLink
    simp [habs]
  · intro h
    have habs : isAbsoluteURL href = true := by
      unfold isAbsoluteURL
      rw [h]
      simp
    have hsp : isSpecialProtocol href = true := by
      unfold isSpecialProtocol
      dsimp only
      rw [h]
      simp
    unfold categorizeLink
    simp [habs, hsp]
  · intro h3 h4
    have hcat : categorizeLink href baseURL c =
        if isSameDomain href baseURL then { c with internal := c.internal + 1 }
        else { c with external := c.external + 1 } := by
      unfold categorizeLink
      simp [h3, h4]
    constructor
    · rw [hcat]
      by_cases hsd : isSameDomain href baseURL = true
      · simp only [hsd, if_true]
        constructor
        · intro _
          exact (isSameDomain_iff href baseURL).mp hsd
        · intro _
          trivial
      · have hsd' : isSameDomain href baseURL = false := Bool.eq_false_iff.mpr hsd
        simp only [hsd', Bool.false_eq_true, if_false]
        constructor
        · intro he
          exfalso
          have h1 := congrArg LinkCounts.internal he
          dsimp at h1
          omega
        · intro hex
          exact absurd ((isSameDomain_iff href baseURL).mpr hex) hsd
    · rw [hcat]
      split <;> simp

/-- Witness for C4: a relative href, a mailto href, an ftp href, a
same-host absolute href (case differing) and a cross-host absolute href,
all against the base `https://example.com`. -/
theorem claim_link_categorization_witness :
    categorizeLink "/about" "https://example.com" ⟨0, 0, 0⟩ = ⟨1, 0, 0⟩ ∧
    categorizeLink "mailto:user@example.com" "https://example.com" ⟨0, 0, 0⟩ = ⟨1, 0, 0⟩ ∧
    categorizeLink "ftp://example.com/file.zip" "https://example.com" ⟨0, 0, 0⟩ = ⟨0, 1, 0⟩ ∧
    categorizeLink "https://EXAMPLE.com/page" "https://example.com" ⟨0, 0, 0⟩ = ⟨1, 0, 0⟩ ∧
    categorizeLink "https://other.com" "https://example.com" ⟨0, 0, 0⟩ = ⟨0, 1, 0⟩ := by
  refine ⟨?_, ?_, ?_, ?_, ?_⟩
  · exact (claim_link_categorization "/about" "https://example.com" ⟨0, 0, 0⟩).1 (by decide)
  · exact (claim_link_categorization "mailto:user@example.com" "https://example.com"
      ⟨0, 0, 0⟩).2.1 (Or.inl (by decide))
  · exact (claim_link_categorization "ftp://example.com/file.zip" "https://example.com"
      ⟨0, 0, 0⟩).2.2.1 (by decide)
  · exact ((claim_link_categorization "https://EXAMPLE.com/page" "https://example.com"
      ⟨0, 0, 0⟩).2.2.2 (by decide) (by decide)).1.mpr
      ⟨⟨"https", "EXAMPLE.com"⟩, ⟨"https", "example.com"⟩, by decide, by decide, by decide⟩
  · rcases ((claim_link_categorization "https://other.com" "https://example.com"
      ⟨0, 0, 0⟩).2.2.2 (by decide) (by decide)).2 with h | h
    · exfalso
      rcases ((claim_link_categorization "https://other.com" "https://example.com"
        ⟨0, 0, 0⟩).2.2.2 (by decide) (by decide)).1.mp h with ⟨hu, bu, hr, hb, he⟩
      have h0 : resolvedParse "https://other.com" "https://example.com" =
          some ⟨"https", "other.com"⟩ := by decide
      have h0b : urlParse "https://example.com" = some ⟨"https", "example.com"⟩ := by decide
      rw [h0] at hr
      rw [h0b] at hb
      injection hr with hr
      injection hb with hb
      subst hr
      subst hb
      exact absurd he (by decide)
    · exact h

/-! ## Helper lemmas: title extraction -/

theorem firstNonEmpty_append (l1 l2 : List String) :
    firstNonEmpty (l1 ++ l2) =
      if firstNonEmpty l1 ≠ "" then firstNonEmpty l1 else firstNonEmpty l2 := by
  induction l1 with
  | nil => simp [firstNonEmpty]
  | cons s rest ih =>
    by_cases hs : s = ""
    · simp [firstNonEmpty, hs, ih]
    · simp [firstNonEmpty, hs]

mutual

theorem findTitle_spec : ∀ n : HNode, findTitle n = firstNonEmpty (titleTextsSpec n)
  | .mk t d a kids => by
    rw [findTitle, titleTextsSpec]
    by_cases h : isTitleElement (.mk t d a kids) = true
    · rw [if_pos h, if_pos h, firstNonEmpty]
      by_cases hx : extractTitleText (.mk t d a kids) ≠ ""
      · rw [if_pos hx]
      · push_neg at hx
        rw [if_neg (by simp [hx]), firstNonEmpty, hx]
    · rw [if_neg h, if_neg h]
      exact findTitleKids_spec kids

theorem findTitleKids_spec : ∀ l : List HNode,
    findTitleKids l = firstNonEmpty (titleTextsSpecKids l)
  | [] => by rw [findTitleKids, titleTextsSpecKids, firstNonEmpty]
  | c :: cs => by
    rw [findTitleKids, titleTextsSpecKids]
    rw [findTitle_spec c, findTitleKids_spec cs, firstNonEmpty_append]

end

/-! ## Claim C8 -/

/-- C8 counterexample: in a document whose first title element is empty
and whose second title element holds `Second`, the extractor returns
`Second`, not the empty string the claim requires when the first title is
empty. -/
theorem claim_title_counterexample :
    titleTextsSpec twoTitlesDoc = ["", "Second"] ∧
    ExtractPageTitle (Sum.inl twoTitlesDoc : HNode ⊕ Unit) = "Second" := by
  constructor <;> decide

/-- C8 amended: the extracted page title is the trimmed immediate text of
the first title element in document order whose trimmed text is
non-empty; if no such element exists the result is the empty string. -/
theorem claim_title_amended (n : HNode) :
    ExtractPageTitle (Sum.inl n : HNode ⊕ Unit) = firstNonEmpty (titleTextsSpec n) :=
  findTitle_spec n

/-! ## Helper lemmas: heading histogram -/

theorem mapLookup_mapIncr_same (m : List (String × Nat)) (k : String) :
    mapLookup (mapIncr m k) k = some ((mapLookup m k).getD 0 + 1) := by
  induction m with
  | nil => simp [mapIncr, mapLookup]
  | cons p rest ih =>
    obtain ⟨k2, v⟩ := p
    by_cases h : k2 = k
    · simp [mapIncr, mapLookup, h]
    · simp [mapIncr, mapLookup, h, ih]

theorem mapLookup_mapIncr_other (m : List (String × Nat)) (k k' : String) (h : k' ≠ k) :
    mapLookup (mapIncr m k) k' = mapLookup m k' := by
  have h' : ¬(k = k') := fun hh => h hh.symm
  induction m with
  | nil => simp [mapIncr, mapLookup, h']
  | cons p rest ih =>
    obtain ⟨k2, v⟩ := p
    by_cases h2 : k2 = k
    · simp [mapIncr, mapLookup, h2, h']
    · simp [mapIncr, mapLookup, h2, ih]

theorem lookupAfter_zero (p : Option Nat) : lookupAfter p 0 = p := by
  cases p <;> simp [lookupAfter]

theorem lookupAfter_add (p : Option Nat) (a b : Nat) :
    lookupAfter (lookupAfter p a) b = lookupAfter p (a + b) := by
  cases p with
  | some v => simp [lookupAfter, Nat.add_assoc]
  | none =>
    by_cases ha : a = 0
    · simp [lookupAfter, ha]
    · by_cases hb : b = 0
      · simp [lookupAfter, ha, hb]
      · simp [lookupAfter, ha, hb, Nat.add_eq_zero]

theorem lookupAfter_incr (m : List (String × Nat)) (k : String) (b : Nat) :
    lookupAfter (mapLookup (mapIncr m k) k) b = lookupAfter (mapLookup m k) (1 + b) := by
  rw [mapLookup_mapIncr_same]
  cases hm : mapLookup m k with
  | some v =>
    simp only [Option.getD_some, lookupAfter]
    exact congrArg some (by omega)
  | none =>
    simp only [Option.getD_none, lookupAfter]
    rw [if_neg (by omega : ¬(1 + b = 0))]

mutual

theorem countHeadings_lookup : ∀ (n : HNode) (m : List (String × Nat)) (k : String),
    mapLookup (countHeadings n m) k = lookupAfter (mapLookup m k) (headingOccurrences k n)
  | .mk t d a kids, m, k => by
    rw [countHeadings, headingOccurrences]
    by_cases hh : isHeadingElement (.mk t d a kids) = true
    · by_cases hdk : d = k
      · rw [if_pos hh]
        rw [countHeadingsKids_lookup kids (mapIncr m d) k]
        subst hdk
        rw [lookupAfter_incr]
        have : (if isHeadingElement (.mk t d a kids) && (d == d) then 1 else 0) = 1 := by
          simp [hh]
        rw [this]
      · rw [if_pos hh]
        rw [countHeadingsKids_lookup kids (mapIncr m d) k,
          mapLookup_mapIncr_other m d k (fun hkd => hdk hkd.symm)]
        have : (if isHeadingElement (.mk t d a kids) && (d == k) then 1 else 0) = 0 := by
          simp [hdk]
        rw [this, Nat.zero_add]
    · rw [if_neg hh]
      rw [countHeadingsKids_lookup kids m k]
      have : (if isHeadingElement (.mk t d a kids) && (d == k) then 1 else 0) = 0 := by
        have hh' : isHeadingElement (.mk t d a kids) = false := Bool.eq_false_iff.mpr hh
        simp [hh']
      rw [this, Nat.zero_add]

theorem countHeadingsKids_lookup : ∀ (l : List HNode) (m : List (String × Nat)) (k : String),
    mapLookup (countHeadingsKids l m) k = lookupAfter (mapLookup m k) (headingOccurrencesKids k l)
  | [], m, k => by
    rw [countHeadingsKids, headingOccurrencesKids, lookupAfter_zero]
  | c :: cs, m, k => by
    rw [countHeadingsKids, headingOccurrencesKids]
    rw [countHeadingsKids_lookup cs (countHeadings c m) k, countHeadings_lookup c m k,
      lookupAfter_add]

end

/-! ## Claim C9 -/

/-- C9 counterexample: a tree holding one element with the uppercase tag
`H1` produces the histogram entry `("H1", 1)` and no `h1` entry — the
histogram is keyed by the raw tag name, not the lowercase one the claim
states. -/
theorem claim_headings_counterexample :
    ExtractHeadings (Sum.inl upperHeadingDoc : HNode ⊕ Unit) = [("H1", 1)] ∧
    mapLookup (ExtractHeadings (Sum.inl upperHeadingDoc : HNode ⊕ Unit)) "h1" = none := by
  constructor <;> decide

/-- C9 amended: the histogram counts exactly the elements whose tag name
case-insensitively matches h1..h6, keyed by the tag name exactly as it
appears in the tree (lowercase for documents built by the upstream HTML
parser, which lowercases tag names): looking up any key yields the number
of heading elements with exactly that tag, and keys with zero occurrences
are absent. -/
theorem claim_headings_amended (n : HNode) (k : String) :
    mapLookup (ExtractHeadings (Sum.inl n : HNode ⊕ Unit)) k =
      if headingOccurrences k n = 0 then none else some (headingOccurrences k n) := by
  have h := countHeadings_lookup n [] k
  rw [show (ExtractHeadings (Sum.inl n : HNode ⊕ Unit)) = countHeadings n [] from rfl, h]
  rw [show mapLookup [] k = none from rfl]
  rw [lookupAfter]

/-! ## Helper lemmas: login detection -/

theorem passwordAttr_isLoginAttribute (attr : HAttr)
    (h1 : eqFold attr.key "type" = true) (h2 : eqFold attr.val "password" = true) :
    isLoginAttribute attr = true := by
  unfold isLoginAttribute
  dsimp only
  have hk : lowerStr attr.key = "type" := by
    unfold eqFold at h1
    have h1' := beq_iff_eq.mp h1
    rw [h1']
    decide
  simp [hk, h2]

mutual

theorem hasInputWithType_hasInputElem :
    ∀ (n : HNode) (ty : String), hasInputWithType n ty = true → hasInputElem n = true
  | .mk t d a kids, ty => by
    rw [hasInputWithType, hasInputElem]
    intro h
    rcases Bool.or_eq_true_iff.mp h with h | h
    · exact Bool.or_eq_true_iff.mpr (Or.inl (Bool.and_eq_true_iff.mp h).1)
    · exact Bool.or_eq_true_iff.mpr (Or.inr (hasInputWithTypeKids_hasInputElemKids kids ty h))

theorem hasInputWithTypeKids_hasInputElemKids :
    ∀ (l : List HNode) (ty : String),
      hasInputWithTypeKids l ty = true → hasInputElemKids l = true
  | [], ty => by
    rw [hasInputWithTypeKids]
    intro h
    exact absurd h (by simp)
  | c :: cs, ty => by
    rw [hasInputWithTypeKids, hasInputElemKids]
    intro h
    rcases Bool.or_eq_true_iff.mp h with h | h
    · exact Bool.or_eq_true_iff.mpr (Or.inl (hasInputWithType_hasInputElem c ty h))
    · exact Bool.or_eq_true_iff.mpr (Or.inr (hasInputWithTypeKids_hasInputElemKids cs ty h))

end

mutual

/-- Under the no-nested-inputs assumption, a password input in the
subtree is reached by `checkInputs`, and its `type=password` attribute
makes it a login input. -/
theorem password_checkInputs :
    ∀ n : HNode, noNestedInputs n = true → hasInputWithType n "password" = true →
      checkInputs n = true
  | .mk t d a kids => by
    rw [noNestedInputs, hasInputWithType, checkInputs]
    by_cases hin : isInputElement (.mk t d a kids) = true
    · rw [if_pos hin, if_pos hin]
      intro hnn hpw
      rcases Bool.or_eq_true_iff.mp hpw with h | h
      · have ⟨attr, hmem, hattr⟩ := List.any_eq_true.mp (Bool.and_eq_true_iff.mp h).2
        unfold isLoginInput
        apply List.any_eq_true.mpr
        refine ⟨attr, hmem, ?_⟩
        exact passwordAttr_isLoginAttribute attr (Bool.and_eq_true_iff.mp hattr).1
          (Bool.and_eq_true_iff.mp hattr).2
      · have := hasInputWithTypeKids_hasInputElemKids kids "password" h
        rw [this] at hnn
        exact absurd hnn (by simp)
    · rw [if_neg hin, if_neg hin]
      intro hnn hpw
      rcases Bool.or_eq_true_iff.mp hpw with h | h
      · have hin' : isInputElement (.mk t d a kids) = false := Bool.eq_false_iff.mpr hin
        rw [hin'] at h
        exact absurd (Bool.and_eq_true_iff.mp h).1 (by simp)
      · exact password_checkInputsKids kids hnn h

theorem password_checkInputsKids :
    ∀ l : List HNode, noNestedInputsKids l = true → hasInputWithTypeKids l "password" = true →
      checkInputsKids l = true
  | [] => by
    rw [hasInputWithTypeKids]
    intro _ h
    exact absurd h (by simp)
  | c :: cs => by
    rw [noNestedInputsKids, hasInputWithTypeKids, checkInputsKids]
    intro hnn hpw
    rcases Bool.or_eq_true_iff.mp hpw with h | h
    · exact Bool.or_eq_true_iff.mpr
        (Or.inl (password_checkInputs c (Bool.and_eq_true_iff.mp hnn).1 h))
    · exact Bool.or_eq_true_iff.mpr
        (Or.inr (password_checkInputsKids cs (Bool.and_eq_true_iff.mp hnn).2 h))

end

/-! ## Claim C2 -/

/-- C2 counterexample: a form holding exactly one bare password input is
detected as a login form although none of the claim's five corroborating
signals is present — no login-pattern attribute, no authentication or
autocomplete attribute, no login-contextual text, no submit control, and
no input whose name/id contains a login-field keyword.  The password
input itself satisfies the code's sixth check (`isLoginAttribute` accepts
`type=password`), so the second-signal requirement is vacuous. -/
theorem claim_login_detector_counterexample :
    ExtractLoginForm (Sum.inl passwordOnlyDoc : HNode ⊕ Unit) = true ∧
    hasPasswordInput passwordOnlyForm = true ∧
    hasLoginPattern passwordOnlyForm = false ∧
    hasAuthAttributes passwordOnlyForm = false ∧
    hasSpecificLoginText passwordOnlyForm = false ∧
    hasLoginSubmitButton passwordOnlyForm = false ∧
    specLoginFieldInput passwordOnlyForm = false := by
  refine ⟨?_, ?_, ?_, ?_, ?_, ?_, ?_⟩ <;> decide

/-- C2 amended: for every form element in which no input element contains
another input element (true of every parsed HTML document, since `input`
is a void element), the login-form detector returns true if and only if
the form subtree contains at least one password-type input.  The
corroborating-signal requirement is automatically satisfied: the password
input itself counts as a login-related input, because the input-signal
check also accepts a `type` attribute equal to `password`. -/
theorem claim_login_detector_amended (n : HNode) (h : noNestedInputs n = true) :
    isLoginForm n = hasPasswordInput n := by
  by_cases hp : hasPasswordInput n = true
  · rw [hp]
    have hli : hasLoginInputs n = true := by
      unfold hasLoginInputs
      exact password_checkInputs n h hp
    unfold isLoginForm
    dsimp only
    simp [hp, hli]
  · have hp' : hasPasswordInput n = false := Bool.eq_false_iff.mpr hp
    rw [hp']
    unfold isLoginForm
    dsimp only
    simp [hp']

/-- Witness for the amended C2 at the bare password form. -/
theorem claim_login_detector_amended_witness :
    noNestedInputs passwordOnlyForm = true ∧
    isLoginForm passwordOnlyForm = hasPasswordInput passwordOnlyForm :=
  ⟨by decide, claim_login_detector_amended passwordOnlyForm (by decide)⟩

/-! ## Claim C10 -/

/-- C10: every public extractor is total on arbitrary document-handle
values; for every input that is not a parsed HTML node, each extractor
returns its documented default. -/
theorem claim_extractors_total (α : Type) (x : α) (baseURL : String) :
    ExtractHTMLVersion (Sum.inr x : HNode ⊕ α) = "HTML5 (implied)" ∧
    ExtractPageTitle (Sum.inr x : HNode ⊕ α) = "" ∧
    ExtractHeadings (Sum.inr x : HNode ⊕ α) = [] ∧
    ExtractLinks (Sum.inr x : HNode ⊕ α) baseURL = ⟨0, 0, 0⟩ ∧
    ExtractLoginForm (Sum.inr x : HNode ⊕ α) = false :=
  ⟨rfl, rfl, rfl, rfl, rfl⟩

/-! ## Helper lemmas: cache and task-group collection -/

theorem cacheGet_cacheSet_same (c : Cache) (k : String) (v : WebpageAnalysis) :
    cacheGet (cacheSet c k v) k = some v := by
  induction c with
  | nil => simp [cacheSet, cacheGet]
  | cons p rest ih =>
    obtain ⟨k2, v2⟩ := p
    by_cases h : k2 = k
    · simp [cacheSet, cacheGet, h]
    · simp [cacheSet, cacheGet, h, ih]

/-- After any successful `analyzeWebpage` call, the returned record sits
in the returned cache under the exact request URL string. -/
theorem analyzeWebpage_success_cached (co : Collaborators) (cache cache2 : Cache)
    (now : Nat) (url : String) (rec : WebpageAnalysis) (eff : Effects)
    (h : analyzeWebpage co cache now url = (.inr rec, cache2, eff)) :
    cacheGet cache2 url = some rec := by
  unfold analyzeWebpage at h
  cases hc : cacheGet cache url with
  | some cached =>
    rw [hc] at h
    dsimp only at h
    simp only [Prod.mk.injEq, Sum.inr.injEq] at h
    obtain ⟨hrec, hcache, -⟩ := h
    rw [← hcache, hc, hrec]
  | none =>
    rw [hc] at h
    dsimp only at h
    cases hf : (co.fetchWebpage url).fetchErr with
    | some msg =>
      rw [hf] at h
      simp at h
    | none =>
      rw [hf] at h
      dsimp only at h
      by_cases hs : (co.fetchWebpage url).statusCode ≠ 200
      · rw [if_pos hs] at h
        simp at h
      · rw [if_neg hs] at h
        cases hp : co.parseHTML (co.fetchWebpage url).body with
        | inr msg =>
          rw [hp] at h
          simp at h
        | inl docTree =>
          rw [hp] at h
          dsimp only at h
          simp only [Prod.mk.injEq, Sum.inr.injEq] at h
          obtain ⟨hrec, hcache, -⟩ := h
          rw [← hcache, ← hrec]
          exact cacheGet_cacheSet_same cache url _

/-- `getResult` is invariant under permutation of a result list whose
names are distinct. -/
theorem getResult_perm {l1 l2 : List (String × TaskResult)} (hp : l1.Perm l2) :
    (l1.map Prod.fst).Nodup → ∀ name, getResult l1 name = getResult l2 name := by
  induction hp with
  | nil =>
    intro _ name
    rfl
  | cons x hp ih =>
    intro hnd name
    obtain ⟨n, r⟩ := x
    rw [getResult, getResult]
    simp only [List.map, List.nodup_cons] at hnd
    by_cases h : n == name
    · rw [if_pos h, if_pos h]
    · rw [if_neg h, if_neg h]
      exact ih hnd.2 name
  | swap x y l =>
    intro hnd name
    obtain ⟨n1, r1⟩ := x
    obtain ⟨n2, r2⟩ := y
    simp only [List.map, List.nodup_cons, List.mem_cons] at hnd
    have hne : ¬(n2 = n1) := fun he => hnd.1 (Or.inl he)
    rw [getResult, getResult, getResult, getResult]
    by_cases h1 : n2 == name
    · by_cases h2 : n1 == name
      · exact absurd ((beq_iff_eq.mp h1).trans (beq_iff_eq.mp h2).symm) hne
      · rw [if_pos h1, if_neg h2, if_pos h1]
    · by_cases h2 : n1 == name
      · rw [if_neg h1, if_pos h2, if_pos h2]
      · rw [if_neg h1, if_neg h2, if_neg h2, if_neg h1]
  | trans hp1 hp2 ih1 ih2 =>
    intro hnd name
    rw [ih1 hnd name]
    exact ih2 (((hp1.map Prod.fst).nodup_iff).mp hnd) name

/-! ## Claim C5 -/

/-- C5: once `analyzeWebpage` has succeeded for a URL, a second call with
the character-for-character identical URL string returns the previously
stored record unchanged (in particular the same `analyzedAt`, whatever
the new call time is), leaves the cache untouched, and performs zero
fetches and zero parses (hence no extraction, which only follows a
parse).  The cache is keyed by the exact request URL string: the second
call hits exactly because its key string equals the stored one. -/
theorem claim_cache_second_call (co : Collaborators) (cache cache2 : Cache)
    (now now2 : Nat) (url : String) (rec : WebpageAnalysis) (eff : Effects)
    (h : analyzeWebpage co cache now url = (.inr rec, cache2, eff)) :
    analyzeWebpage co cache2 now2 url = (.inr rec, cache2, ⟨0, 0⟩) := by
  have hg := analyzeWebpage_success_cached co cache cache2 now url rec eff h
  unfold analyzeWebpage
  rw [hg]

/-- Witness for C5: a first call against the sample collaborators fills
the cache; the second call at a different time returns the same record
with zero collaborator calls. -/
theorem claim_cache_second_call_witness :
    analyzeWebpage okCollaborators
        [("https://example.com", serviceSampleRecord)] 99 "https://example.com" =
      (.inr serviceSampleRecord, [("https://example.com", serviceSampleRecord)], ⟨0, 0⟩) :=
  claim_cache_second_call okCollaborators [] [("https://example.com", serviceSampleRecord)]
    5 99 "https://example.com" serviceSampleRecord ⟨1, 1⟩ (by decide)

/-! ## Claim C6 -/

/-- C6: running the five extraction passes in any completion order over
the shared document handle yields the same assembled analysis record as
the canonical sequential order.  Each pass is a pure function of the
immutable handle writing its own named slot, so any concurrent schedule
of the worker pool produces some permutation of the canonical (name,
result) list, and collection by name is permutation-invariant. -/
theorem claim_order_independent_collection (doc : HNode ⊕ Unit) (url : String)
    (base : WebpageAnalysis) (perm : List (String × TaskResult))
    (hp : perm.Perm (analysisTasks doc url)) :
    collectResults base perm = collectResults base (analysisTasks doc url) := by
  have hnd : ((analysisTasks doc url).map Prod.fst).Nodup := by
    rw [show (analysisTasks doc url).map Prod.fst =
      ["html_version", "page_title", "headings", "links", "login_form"] from rfl]
    decide
  have hg : ∀ name, getResult perm name = getResult (analysisTasks doc url) name :=
    getResult_perm hp (((hp.map Prod.fst).nodup_iff).mpr hnd)
  unfold collectResults
  rw [hg "html_version", hg "page_title", hg "headings", hg "links", hg "login_form"]

/-- Witness for C6: collecting the five results in reverse completion
order equals collecting them in the canonical order for the sample
document. -/
theorem claim_order_independent_collection_witness :
    collectResults serviceSampleRecord
        ((analysisTasks (Sum.inl serviceSampleDoc : HNode ⊕ Unit) "https://example.com").reverse) =
      collectResults serviceSampleRecord
        (analysisTasks (Sum.inl serviceSampleDoc : HNode ⊕ Unit) "https://example.com") :=
  claim_order_independent_collection (Sum.inl serviceSampleDoc) "https://example.com"
    serviceSampleRecord _ (List.reverse_perm _)

/-! ## Claim C7 -/

/-- C7: when the fetch succeeds at transport level but returns a non-200
status, `analyzeWebpage` returns no record — only an `AnalysisError`
carrying that status code, the request URL, and the status-keyed message;
for any status outside the mapped table the message is
`HTTP {code}: {reason}` with the standard reason phrase.  The HTTP layer
surfaces every classified `AnalysisError` with transport status 400 and
every other error with 500. -/
theorem claim_http_status_error (co : Collaborators) (cache : Cache) (now : Nat)
    (url body : String) (code : Int)
    (hc : cacheGet cache url = none)
    (hf : co.fetchWebpage url = ⟨body, code, none⟩)
    (hs : code ≠ 200) :
    analyzeWebpage co cache now url =
      (.inl ⟨code, getHTTPStatusMessage code, url⟩, cache, ⟨1, 0⟩) ∧
    (∀ e : AnalysisError, handlerTransportStatus (.inl (.analysis e)) = 400) ∧
    (∀ msg : String, handlerTransportStatus (.inl (.other msg)) = 500) ∧
    (code ∉ ([400, 401, 403, 404, 408, 429, 495, 500, 502, 503, 504] : List Int) →
      getHTTPStatusMessage code = "HTTP " ++ toString code ++ ": " ++ statusText code) := by
  refine ⟨?_, fun e => rfl, fun msg => rfl, ?_⟩
  · unfold analyzeWebpage
    rw [hc]
    dsimp only
    rw [hf]
    dsimp only
    rw [if_pos hs]
  · intro hmem
    simp only [List.mem_cons, List.not_mem_nil, or_false, not_or] at hmem
    unfold getHTTPStatusMessage
    rw [if_neg hmem.1, if_neg hmem.2.1, if_neg hmem.2.2.1, if_neg hmem.2.2.2.1,
      if_neg hmem.2.2.2.2.1, if_neg hmem.2.2.2.2.2.1, if_neg hmem.2.2.2.2.2.2.1,
      if_neg hmem.2.2.2.2.2.2.2.1, if_neg hmem.2.2.2.2.2.2.2.2.1,
      if_neg hmem.2.2.2.2.2.2.2.2.2.1, if_neg hmem.2.2.2.2.2.2.2.2.2.2]

/-- Witness for C7 at status 410 (outside the mapped table). -/
theorem claim_http_status_error_witness :
    analyzeWebpage goneCollaborators [] 5 "https://example.com" =
      (.inl ⟨410, "HTTP 410: Gone", "https://example.com"⟩, [], ⟨1, 0⟩) ∧
    handlerTransportStatus
      (.inl (.analysis ⟨410, "HTTP 410: Gone", "https://example.com"⟩)) = 400 ∧
    handlerTransportStatus (.inl (.other "boom")) = 500 ∧
    getHTTPStatusMessage 410 = "HTTP 410: Gone" := by
  have h := claim_http_status_error goneCollaborators [] 5 "https://example.com" "" 410
    (by decide) (by decide) (by decide)
  have hmsg : getHTTPStatusMessage 410 = "HTTP 410: Gone" := by
    rw [h.2.2.2 (by decide)]
    decide
  refine ⟨?_, h.2.1 _, h.2.2.1 _, hmsg⟩
  rw [← hmsg]
  exact h.1

end WebpageAnalyzer
